import Mathlib

/-!
Verification of the data-access and report-generation layer of the
internship-tracking application (`kyra_internship_dashboard.py`).

The SQLite store is modelled as three tables held as lists of rows in
insertion (rowid) order, together with the next AUTOINCREMENT identifier of
each table.  Each repository operation opens its own connection; a storage
fault raised by the engine during an operation is modelled by an
`err : Option String` oracle (`some detail` means the engine raises
`sqlite3.Error(detail)` during the operation, `none` means the engine
succeeds).  Every operation returns its Python return value together with
the resulting store and the list of messages it reported to the UI via
`st.error` (in source order).
-/

namespace Kyra

/-- A row of the `students` table:
`student_id INTEGER PRIMARY KEY AUTOINCREMENT, name TEXT NOT NULL,
email TEXT UNIQUE NOT NULL`. -/
structure Student where
  student_id : Nat
  name : String
  email : String
deriving DecidableEq

/-- A row of the `internships` table:
`internship_id INTEGER PRIMARY KEY AUTOINCREMENT, student_id INTEGER,
company_name TEXT NOT NULL, duration TEXT NOT NULL, feedback TEXT,
msme_digitalized INTEGER DEFAULT 0`. -/
structure InternshipRow where
  internship_id : Nat
  student_id : Nat
  company_name : String
  duration : String
  feedback : String
  msme_digitalized : Int
deriving DecidableEq

/-- A row of the `feedback` table:
`feedback_id INTEGER PRIMARY KEY AUTOINCREMENT, student_id INTEGER,
rating INTEGER, comments TEXT`. -/
structure FeedbackRow where
  feedback_id : Nat
  student_id : Nat
  rating : Int
  comments : String
deriving DecidableEq

/-- The whole store: the three tables (rows in rowid order) and the next
AUTOINCREMENT key of each table. -/
structure Store where
  students : List Student
  internships : List InternshipRow
  feedback : List FeedbackRow
  next_student_id : Nat
  next_internship_id : Nat
  next_feedback_id : Nat
deriving DecidableEq

/-- The store right after `initialize_database` has created the three empty
tables (SQLite AUTOINCREMENT keys start at 1). -/
def emptyStore : Store :=
  { students := [], internships := [], feedback := [],
    next_student_id := 1, next_internship_id := 1, next_feedback_id := 1 }

/-- `register_student(name, email)`:
`INSERT OR IGNORE INTO students (name, email) VALUES (?, ?)` — the insert is
skipped when a row with the same (UNIQUE) email already exists; returns
`True`.  On a storage error it reports `Error registering student: {e}` and
returns `False`. -/
def register_student (err : Option String) (name email : String) (s : Store) :
    Bool × Store × List String :=
  match err with
  | some e => (false, s, ["Error registering student: " ++ e])
  | none =>
    if s.students.any (fun st => st.email == email) then
      (true, s, [])
    else
      (true,
        { s with
          students := s.students ++ [⟨s.next_student_id, name, email⟩],
          next_student_id := s.next_student_id + 1 },
        [])

/-- `log_internship(email, company, duration, feedback, msme_digitalized)`:
resolves `email` via `SELECT student_id FROM students WHERE email = ?`; on a
match inserts the internship row and returns `True`; otherwise reports
`Student email not found.` and returns `False`.  On a storage error it
reports `Error logging internship: {e}` and returns `False`. -/
def log_internship (err : Option String) (email company duration feedback : String)
    (msme_digitalized : Int) (s : Store) : Bool × Store × List String :=
  match err with
  | some e => (false, s, ["Error logging internship: " ++ e])
  | none =>
    match s.students.find? (fun st => st.email == email) with
    | some st =>
      (true,
        { s with
          internships := s.internships ++
            [⟨s.next_internship_id, st.student_id, company, duration, feedback,
              msme_digitalized⟩],
          next_internship_id := s.next_internship_id + 1 },
        [])
    | none => (false, s, ["Student email not found."])

/-- `log_feedback(student_id, rating, comments)`: inserts the feedback row
for the given identifier — no check that the identifier exists (SQLite does
not enforce the declared FOREIGN KEY by default) — and returns `True`.  On a
storage error it reports `Error logging feedback: {e}` and returns `False`. -/
def log_feedback (err : Option String) (student_id : Nat) (rating : Int)
    (comments : String) (s : Store) : Bool × Store × List String :=
  match err with
  | some e => (false, s, ["Error logging feedback: " ++ e])
  | none =>
    (true,
      { s with
        feedback := s.feedback ++ [⟨s.next_feedback_id, student_id, rating, comments⟩],
        next_feedback_id := s.next_feedback_id + 1 },
      [])

/-- The dictionary returned by `fetch_student_data` on a match: the student
identifier and name plus the student's internship rows projected to
`(company_name, duration, feedback, msme_digitalized)`. -/
structure StudentView where
  student_id : Nat
  name : String
  internships : List (String × String × String × Int)
deriving DecidableEq

/-- `fetch_student_data(email)`: resolves `email` to a student; on a match
returns the view with that student's internship rows (rowid order) projected
to the four view columns; returns `None` when no student matches.  On a
storage error it reports `Error fetching student data: {e}` and returns
`None`. -/
def fetch_student_data (err : Option String) (email : String) (s : Store) :
    Option StudentView × List String :=
  match err with
  | some e => (none, ["Error fetching student data: " ++ e])
  | none =>
    match s.students.find? (fun st => st.email == email) with
    | some st =>
      (some
        { student_id := st.student_id, name := st.name,
          internships :=
            (s.internships.filter (fun i => i.student_id == st.student_id)).map
              (fun i => (i.company_name, i.duration, i.feedback, i.msme_digitalized)) },
        [])
    | none => (none, [])

/-- One row of the report join produced by `fetch_reports`:
`s.name, s.email, i.company_name, i.duration, i.feedback, i.msme_digitalized`. -/
structure ReportRow where
  name : String
  email : String
  company_name : String
  duration : String
  feedback : String
  msme_digitalized : Int
deriving DecidableEq

/-- `fetch_reports()`: the inner join of `internships` with their owning
student.  On a storage error it reports `Error fetching reports: {e}` and
returns the empty list. -/
def fetch_reports (err : Option String) (s : Store) :
    List ReportRow × List String :=
  match err with
  | some e => ([], ["Error fetching reports: " ++ e])
  | none =>
    (s.internships.filterMap
      (fun i =>
        (s.students.find? (fun st => st.student_id == i.student_id)).map
          (fun st =>
            ⟨st.name, st.email, i.company_name, i.duration, i.feedback,
              i.msme_digitalized⟩)),
      [])

/-- The dictionary returned by `fetch_metrics`. -/
structure Metrics where
  total_internships : Nat
  total_msmes : Int
  certifications_issued : Nat
deriving DecidableEq

/-- `fetch_metrics()`: `COUNT(*)`, `SUM(msme_digitalized)` (SQL `SUM` is
NULL on an empty table; the code applies `or 0`), and
`COUNT(DISTINCT student_id)`, all over `internships`.  On a storage error it
reports `Error fetching metrics: {e}` and returns the empty dictionary,
modelled as `none`. -/
def fetch_metrics (err : Option String) (s : Store) :
    Option Metrics × List String :=
  match err with
  | some e => (none, ["Error fetching metrics: " ++ e])
  | none =>
    (some
      { total_internships := s.internships.length,
        total_msmes :=
          (if s.internships.isEmpty then (none : Option Int)
            else some ((s.internships.map (fun i => i.msme_digitalized)).sum)).getD 0,
        certifications_issued :=
          ((s.internships.map (fun i => i.student_id)).dedup).length },
      [])

/-- The text `generate_pdf_report` draws for one report row:
`f"Name: {row[0]}, Email: {row[1]}, Company: {row[2]}, Duration: {row[3]},
Feedback: {row[4]}, MSMEs Digitalized: {row[5]}"`. -/
def renderLine (r : ReportRow) : String :=
  "Name: " ++ r.name ++ ", Email: " ++ r.email ++ ", Company: " ++ r.company_name ++
    ", Duration: " ++ r.duration ++ ", Feedback: " ++ r.feedback ++
    ", MSMEs Digitalized: " ++ toString r.msme_digitalized

/-- One operation performed on the reportlab canvas. -/
inductive CanvasOp where
  | draw (x y : Nat) (text : String)
  | page
deriving DecidableEq

/-- The canvas loop of `generate_pdf_report`: carrying the cursor `y`
(initially 800), each row is drawn by `c.drawString(30, y, text)`, then
`y -= 20`, and when `y < 40` the canvas starts a new page (`c.showPage()`)
and `y` resets to 800. -/
def genOps : List ReportRow → Nat → List CanvasOp
  | [], _ => []
  | r :: rs, y =>
    CanvasOp.draw 30 y (renderLine r) ::
      (if y - 20 < 40 then CanvasOp.page :: genOps rs 800 else genOps rs (y - 20))

/-- `generate_pdf_report(data)` as the sequence of canvas operations it
performs, starting at `y = 800`. -/
def generate_pdf_report (data : List ReportRow) : List CanvasOp :=
  genOps data 800

/-- The texts drawn by a sequence of canvas operations, in order. -/
def drawTexts (ops : List CanvasOp) : List String :=
  ops.filterMap (fun op =>
    match op with
    | CanvasOp.draw _ _ t => some t
    | CanvasOp.page => none)

/-- Draws a column of rows on one page: with `c` line slots remaining, the
next row is drawn at `y = 20 * c + 20` (so slot 39 is `y = 800`, slot 1 is
`y = 40`). -/
def drawColumn : Nat → List ReportRow → List CanvasOp
  | _, [] => []
  | c, r :: rs => CanvasOp.draw 30 (20 * c + 20) (renderLine r) :: drawColumn (c - 1) rs

/-- Specification of the rendered document, from the spec's words: rows are
laid out one line each, 39 lines to a page (the fixed margins admit draws at
`y = 800, 780, …, 40`), with a page break exactly after each full page of
39 lines. -/
def render_document_spec (rows : List ReportRow) : List CanvasOp :=
  if _h : 39 ≤ rows.length then
    drawColumn 39 (rows.take 39) ++ CanvasOp.page :: render_document_spec (rows.drop 39)
  else
    drawColumn 39 rows
  termination_by rows.length
  decreasing_by simp only [List.length_drop]; omega

/-- A concrete store holding one registered student, used to instantiate the
theorems on concrete inputs. -/
def storeAnn : Store := (register_student none "Ann" "a@x.com" emptyStore).2.1

/-- The store states reachable from the freshly initialised store through the
write operations of the repository, with arbitrary arguments and arbitrary
storage-fault behaviour (the fetch operations never change the store). -/
inductive Reachable : Store → Prop where
  | init : Reachable emptyStore
  | register (err : Option String) (name email : String) (s : Store) :
      Reachable s → Reachable (register_student err name email s).2.1
  | logInternship (err : Option String) (email company duration feedback : String)
      (msme_digitalized : Int) (s : Store) :
      Reachable s →
        Reachable (log_internship err email company duration feedback msme_digitalized s).2.1
  | logFeedback (err : Option String) (student_id : Nat) (rating : Int)
      (comments : String) (s : Store) :
      Reachable s → Reachable (log_feedback err student_id rating comments s).2.1

/-- In every reachable store, every internship row references a student row
that exists. -/
lemma reachable_internship_fk (s : Store) (h : Reachable s) :
    ∀ i ∈ s.internships, ∃ st ∈ s.students, st.student_id = i.student_id := by
  induction h with
  | init => simp [emptyStore]
  | register err name email s hs ih =>
    intro i hi
    cases err with
    | some e =>
      exact ih i (by simpa [register_student] using hi)
    | none =>
      by_cases hmem : s.students.any (fun st => st.email == email) = true
      · simp only [register_student, hmem, if_true] at hi ⊢
        exact ih i hi
      · simp only [register_student, hmem, if_false] at hi ⊢
        obtain ⟨st, hst, hid⟩ := ih i hi
        exact ⟨st, List.mem_append_left _ hst, hid⟩
  | logInternship err email company duration feedback msme s hs ih =>
    intro i hi
    cases err with
    | some e =>
      exact ih i (by simpa [log_internship] using hi)
    | none =>
      cases hfind : s.students.find? (fun st => st.email == email) with
      | none =>
        simp only [log_internship, hfind] at hi ⊢
        exact ih i hi
      | some st =>
        simp only [log_internship, hfind] at hi ⊢
        rcases List.mem_append.mp hi with hold | hnew
        · exact ih i hold
        · have hstmem : st ∈ s.students := List.mem_of_find?_eq_some hfind
          have : i.student_id = st.student_id := by
            simp only [List.mem_singleton] at hnew
            subst hnew
            rfl
          exact ⟨st, hstmem, this.symm⟩
  | logFeedback err student_id rating comments s hs ih =>
    intro i hi
    cases err with
    | some e =>
      exact ih i (by simpa [log_feedback] using hi)
    | none =>
      exact ih i (by simpa [log_feedback] using hi)

/-- In every reachable store, the student emails are pairwise distinct
(the `UNIQUE` constraint together with `INSERT OR IGNORE`). -/
lemma reachable_emails_nodup (s : Store) (h : Reachable s) :
    (s.students.map (fun st => st.email)).Nodup := by
  induction h with
  | init => simp [emptyStore]
  | register err name email s hs ih =>
    cases err with
    | some e => simpa [register_student] using ih
    | none =>
      by_cases hmem : s.students.any (fun st => st.email == email) = true
      · simpa [register_student, hmem] using ih
      · have hnotin : email ∉ s.students.map (fun st => st.email) := by
          simp only [List.any_eq_true] at hmem
          simp only [List.mem_map]
          rintro ⟨st, hst, hste⟩
          exact hmem ⟨st, hst, by simp [hste]⟩
        simp [register_student, hmem, List.nodup_append, ih, hnotin]
  | logInternship err email company duration feedback msme s hs ih =>
    cases err with
    | some e => simpa [log_internship] using ih
    | none =>
      cases hfind : s.students.find? (fun st => st.email == email) with
      | none => simpa [log_internship, hfind] using ih
      | some st => simpa [log_internship, hfind] using ih
  | logFeedback err student_id rating comments s hs ih =>
    cases err with
    | some e => simpa [log_feedback] using ih
    | none => simpa [log_feedback] using ih

/-- In a student list with pairwise-distinct emails that contains a match for
`e`, exactly one row carries the email `e`. -/
lemma filter_email_length_of_any (e : String) :
    ∀ l : List Student, (l.map (fun st => st.email)).Nodup →
      l.any (fun st => st.email == e) = true →
      (l.filter (fun st => st.email == e)).length = 1 := by
  intro l
  induction l with
  | nil => simp
  | cons a l ih =>
    intro hnd hany
    simp only [List.map_cons, List.nodup_cons] at hnd
    by_cases ha : (a.email == e) = true
    · have he : a.email = e := by simpa using ha
      have hnil : l.filter (fun st => st.email == e) = [] := by
        apply List.filter_eq_nil_iff.mpr
        intro st hst
        simp only [beq_iff_eq]
        intro hste
        exact hnd.1 (List.mem_map.mpr ⟨st, hst, by rw [hste, he]⟩)
      simp [List.filter_cons, ha, hnil]
    · have hany2 : l.any (fun st => st.email == e) = true := by
        simpa [List.any_cons, ha] using hany
      simpa [List.filter_cons, ha] using ih hnd.2 hany2

/-- C1 (amended): in every reachable store state, every Internship row
references an existing Student row, because `log_internship` no-ops when the
email cannot be resolved.  (Feedback rows are not covered: `log_feedback`
inserts the given identifier without any existence check.) -/
theorem internships_reference_existing_student (s : Store) (h : Reachable s) :
    ∀ i ∈ s.internships, ∃ st ∈ s.students, st.student_id = i.student_id :=
  reachable_internship_fk s h

/-- Witness for the amended C1 theorem at the initial store. -/
theorem internships_reference_existing_student_witness :
    Reachable emptyStore ∧
      ∀ i ∈ emptyStore.internships, ∃ st ∈ emptyStore.students,
        st.student_id = i.student_id :=
  ⟨Reachable.init, internships_reference_existing_student emptyStore Reachable.init⟩

/-- C1, as stated, is false: `log_feedback` performs no student lookup, so
from the initial store `log_feedback(999, 5, "x")` reaches a state holding a
Feedback row whose `student_id = 999` references no Student row. -/
theorem feedback_fk_counterexample :
    ¬ (∀ s : Store, Reachable s →
        (∀ i ∈ s.internships, ∃ st ∈ s.students, st.student_id = i.student_id) ∧
        (∀ fb ∈ s.feedback, ∃ st ∈ s.students, st.student_id = fb.student_id)) := by
  intro hclaim
  have hr : Reachable (log_feedback none 999 5 "x" emptyStore).2.1 :=
    Reachable.logFeedback none 999 5 "x" emptyStore Reachable.init
  have hmem : (⟨1, 999, 5, "x"⟩ : FeedbackRow) ∈
      (log_feedback none 999 5 "x" emptyStore).2.1.feedback := by
    simp [log_feedback, emptyStore]
  obtain ⟨st, hst, _⟩ := (hclaim _ hr).2 _ hmem
  simp [log_feedback, emptyStore] at hst

/-- C3: when no student row carries the given email, `log_internship` returns
`False`, reports `Student email not found.`, and leaves the store — in
particular the internships table — unchanged. -/
theorem log_internship_unregistered_email (s : Store)
    (email company duration feedback : String) (msme_digitalized : Int)
    (h : ∀ st ∈ s.students, st.email ≠ email) :
    log_internship none email company duration feedback msme_digitalized s =
      (false, s, ["Student email not found."]) := by
  have hfind : s.students.find? (fun st => st.email == email) = none := by
    apply List.find?_eq_none.mpr
    intro st hst
    simpa using h st hst
  simp [log_internship, hfind]

/-- Witness for C3: on the initial store, logging for `"a@x.com"` fails and
changes nothing. -/
theorem log_internship_unregistered_email_witness :
    (∀ st ∈ emptyStore.students, st.email ≠ "a@x.com") ∧
      log_internship none "a@x.com" "Acme" "3 months" "ok" 2 emptyStore =
        (false, emptyStore, ["Student email not found."]) :=
  ⟨by simp [emptyStore],
   log_internship_unregistered_email emptyStore "a@x.com" "Acme" "3 months" "ok" 2
     (by simp [emptyStore])⟩

/-- C6: for an email matching no Student row, `fetch_student_data` returns the
structured absence outcome `(None, no message)`, while a storage error during
the fetch yields `(None, reported error message)`; the two outcomes differ. -/
theorem fetch_student_absence_distinct_from_error (s : Store) (email : String)
    (h : ∀ st ∈ s.students, st.email ≠ email) :
    fetch_student_data none email s = (none, []) ∧
      (∀ d : String, fetch_student_data (some d) email s =
        (none, ["Error fetching student data: " ++ d])) ∧
      (∀ d : String,
        fetch_student_data none email s ≠ fetch_student_data (some d) email s) := by
  have hfind : s.students.find? (fun st => st.email == email) = none := by
    apply List.find?_eq_none.mpr
    intro st hst
    simpa using h st hst
  refine ⟨by simp [fetch_student_data, hfind], fun d => rfl, fun d => ?_⟩
  simp [fetch_student_data, hfind]

/-- Witness for C6 at the initial store and the email `"z@z.com"`. -/
theorem fetch_student_absence_distinct_from_error_witness :
    (∀ st ∈ emptyStore.students, st.email ≠ "z@z.com") ∧
      (fetch_student_data none "z@z.com" emptyStore = (none, []) ∧
        (∀ d : String, fetch_student_data (some d) "z@z.com" emptyStore =
          (none, ["Error fetching student data: " ++ d])) ∧
        (∀ d : String, fetch_student_data none "z@z.com" emptyStore ≠
          fetch_student_data (some d) "z@z.com" emptyStore)) :=
  ⟨by simp [emptyStore],
   fetch_student_absence_distinct_from_error emptyStore "z@z.com" (by simp [emptyStore])⟩

/-- C7: when the storage engine raises during any of the six repository
operations, the operation catches the fault at its own boundary, reports it,
and returns its benign negative/empty result with the store unchanged —
`False` for the writes, `None` for the student fetch, the empty list for the
report fetch, and the empty dictionary for the metrics fetch. -/
theorem storage_errors_are_benign (d : String)
    (name email company duration feedback comments : String)
    (msme_digitalized rating : Int) (student_id : Nat) (s : Store) :
    register_student (some d) name email s =
        (false, s, ["Error registering student: " ++ d]) ∧
      log_internship (some d) email company duration feedback msme_digitalized s =
        (false, s, ["Error logging internship: " ++ d]) ∧
      log_feedback (some d) student_id rating comments s =
        (false, s, ["Error logging feedback: " ++ d]) ∧
      fetch_student_data (some d) email s =
        (none, ["Error fetching student data: " ++ d]) ∧
      fetch_reports (some d) s = ([], ["Error fetching reports: " ++ d]) ∧
      fetch_metrics (some d) s = (none, ["Error fetching metrics: " ++ d]) :=
  ⟨rfl, rfl, rfl, rfl, rfl, rfl⟩

/-- C8: for every student identifier, every integer rating (no range check)
and every comments value, a successful `log_feedback` returns `True` and a
direct read of the last row of the feedback table returns exactly the written
identifier, rating and comments, untransformed. -/
theorem log_feedback_roundtrip (student_id : Nat) (rating : Int)
    (comments : String) (s : Store) :
    (log_feedback none student_id rating comments s).1 = true ∧
      (log_feedback none student_id rating comments s).2.1.feedback.getLast? =
        some ⟨s.next_feedback_id, student_id, rating, comments⟩ :=
  ⟨rfl, by simp [log_feedback, List.getLast?_concat]⟩

/-- C10: when a Student row with the given email already exists, registering
again with a different name returns `True` and leaves the whole store — the
existing row, its stored name, and all other tables — unchanged. -/
theorem register_existing_email_is_noop (s : Store) (name2 email : String)
    (h : ∃ st ∈ s.students, st.email = email) :
    register_student none name2 email s = (true, s, []) := by
  obtain ⟨st, hst, he⟩ := h
  have hany : s.students.any (fun st => st.email == email) = true :=
    List.any_eq_true.mpr ⟨st, hst, by simp [he]⟩
  simp [register_student, hany]

/-- Witness for C10: re-registering `"a@x.com"` under the name `"Bea"` leaves
the store holding `("Ann", "a@x.com")` unchanged. -/
theorem register_existing_email_is_noop_witness :
    (∃ st ∈ storeAnn.students, st.email = "a@x.com") ∧
      register_student none "Bea" "a@x.com" storeAnn = (true, storeAnn, []) :=
  ⟨by decide, register_existing_email_is_noop storeAnn "Bea" "a@x.com" (by decide)⟩

/-- C2: from any reachable store, registering the same email twice (with any
names) makes the second call succeed as a silent no-op — it returns `True`
and leaves the store unchanged — and exactly one Student row carries that
email afterwards. -/
theorem register_idempotent_on_email (s : Store) (h : Reachable s)
    (name1 name2 email : String) :
    ∃ s1, (register_student none name1 email s).2.1 = s1 ∧
      register_student none name2 email s1 = (true, s1, []) ∧
      (s1.students.filter (fun st => st.email == email)).length = 1 := by
  have hnd : (s.students.map (fun st => st.email)).Nodup :=
    reachable_emails_nodup s h
  by_cases hmem : s.students.any (fun st => st.email == email) = true
  · refine ⟨s, by simp [register_student, hmem], by simp [register_student, hmem], ?_⟩
    exact filter_email_length_of_any email s.students hnd hmem
  · refine ⟨⟨s.students ++ [⟨s.next_student_id, name1, email⟩], s.internships,
      s.feedback, s.next_student_id + 1, s.next_internship_id, s.next_feedback_id⟩,
      by simp [register_student, hmem], ?_, ?_⟩
    · have hany2 : ((s.students ++ [⟨s.next_student_id, name1, email⟩] :
          List Student).any (fun st => st.email == email)) = true := by
        simp
      simp [register_student, hany2]
    · have hnil : s.students.filter (fun st => st.email == email) = [] := by
        apply List.filter_eq_nil_iff.mpr
        intro st hst
        simp only [List.any_eq_true] at hmem
        exact fun hc => hmem ⟨st, hst, hc⟩
      simp [List.filter_append, hnil]

/-- Witness for C2: registering `"a@x.com"` twice on the initial store. -/
theorem register_idempotent_on_email_witness :
    Reachable emptyStore ∧
      ∃ s1, (register_student none "Ann" "a@x.com" emptyStore).2.1 = s1 ∧
        register_student none "Bea" "a@x.com" s1 = (true, s1, []) ∧
        (s1.students.filter (fun st => st.email == "a@x.com")).length = 1 :=
  ⟨Reachable.init,
   register_idempotent_on_email emptyStore Reachable.init "Ann" "Bea" "a@x.com"⟩

/-- C4: `fetch_metrics` (without a storage fault) returns exactly the three
aggregates over the internships table — the row count, the sum of the
digitalized counts (`0`, never absent, when there are no rows), and the
number of distinct owning-student identifiers — and on the initial empty
store it returns `(0, 0, 0)`. -/
theorem fetch_metrics_aggregates (s : Store) :
    fetch_metrics none s =
      (some
        { total_internships := s.internships.length,
          total_msmes := (s.internships.map (fun i => i.msme_digitalized)).sum,
          certifications_issued :=
            (s.internships.map (fun i => i.student_id)).toFinset.card },
        []) ∧
    fetch_metrics none emptyStore =
      (some { total_internships := 0, total_msmes := 0, certifications_issued := 0 },
        []) := by
  constructor
  · have h1 : (if s.internships.isEmpty then (none : Option Int)
        else some ((s.internships.map (fun i => i.msme_digitalized)).sum)).getD 0 =
        (s.internships.map (fun i => i.msme_digitalized)).sum := by
      cases s.internships <;> simp
    have h2 : ((s.internships.map (fun i => i.student_id)).dedup).length =
        (s.internships.map (fun i => i.student_id)).toFinset.card :=
      (List.card_toFinset _).symm
    simp only [fetch_metrics]
    rw [h1, h2]
  · rfl

/-- C5: starting from any store whose first student row for `"a@x.com"` is
`st` and which holds no internship row owned by `st`, logging
`("Acme", "3 months", "ok", 2)` for `"a@x.com"` and then fetching the student
yields a view holding exactly the one projected entry
`("Acme", "3 months", "ok", 2)`, in insertion order. -/
theorem log_then_fetch_roundtrip (s : Store) (st : Student)
    (h1 : s.students.find? (fun x => x.email == "a@x.com") = some st)
    (h2 : ∀ i ∈ s.internships, i.student_id ≠ st.student_id) :
    (fetch_student_data none "a@x.com"
        (log_internship none "a@x.com" "Acme" "3 months" "ok" 2 s).2.1).1 =
      some
        { student_id := st.student_id, name := st.name,
          internships := [("Acme", "3 months", "ok", 2)] } := by
  have hnil : s.internships.filter (fun i => i.student_id == st.student_id) = [] := by
    apply List.filter_eq_nil_iff.mpr
    intro i hi
    simpa using h2 i hi
  simp [log_internship, h1, fetch_student_data, List.filter_append, hnil]

/-- Witness for C5 on a concrete store holding the single registered student
`("Ann", "a@x.com")`. -/
theorem log_then_fetch_roundtrip_witness :
    storeAnn.students.find? (fun x => x.email == "a@x.com") =
        some ⟨1, "Ann", "a@x.com"⟩ ∧
      (∀ i ∈ storeAnn.internships, i.student_id ≠ (1 : Nat)) ∧
      (fetch_student_data none "a@x.com"
          (log_internship none "a@x.com" "Acme" "3 months" "ok" 2 storeAnn).2.1).1 =
        some
          { student_id := 1, name := "Ann",
            internships := [("Acme", "3 months", "ok", 2)] } :=
  ⟨by decide, by decide,
   log_then_fetch_roundtrip storeAnn ⟨1, "Ann", "a@x.com"⟩ (by decide) (by decide)⟩

/-- The canvas loop draws exactly one line of text per input row, in input
order, whatever the starting cursor. -/
lemma drawTexts_genOps (rs : List ReportRow) :
    ∀ y : Nat, drawTexts (genOps rs y) = rs.map renderLine := by
  induction rs with
  | nil => intro y; simp [genOps, drawTexts]
  | cons r rs ih =>
    intro y
    by_cases hy : y - 20 < 40
    · simpa [genOps, drawTexts, hy, List.filterMap_cons] using ih 800
    · simpa [genOps, drawTexts, hy, List.filterMap_cons] using ih (y - 20)

/-- Unrolling one page of the canvas loop: with `c ≥ 1` line slots left on
the page (cursor at `y = 20 * c + 20`), the loop draws the next `c` rows as a
column, and exactly when `c` rows were available it emits a page break and
restarts at `y = 800`. -/
lemma genOps_page_unroll (rs : List ReportRow) :
    ∀ c : Nat, 1 ≤ c →
      genOps rs (20 * c + 20) =
        drawColumn c (rs.take c) ++
          (if c ≤ rs.length then CanvasOp.page :: genOps (rs.drop c) 800 else []) := by
  induction rs with
  | nil =>
    intro c hc
    rw [if_neg (by simp only [List.length_nil]; omega : ¬ c ≤ List.length ([] : List ReportRow))]
    simp [genOps, drawColumn]
  | cons r rs ih =>
    intro c hc
    obtain ⟨k, rfl⟩ : ∃ k, c = k + 1 := ⟨c - 1, by omega⟩
    by_cases hk : k = 0
    · subst hk
      simp [genOps, drawColumn]
    · have hy : 20 * (k + 1) + 20 - 20 = 20 * k + 20 := by omega
      rw [show genOps (r :: rs) (20 * (k + 1) + 20) =
            CanvasOp.draw 30 (20 * (k + 1) + 20) (renderLine r) ::
              (if 20 * (k + 1) + 20 - 20 < 40 then CanvasOp.page :: genOps rs 800
                else genOps rs (20 * (k + 1) + 20 - 20)) from rfl]
      rw [hy, if_neg (by omega : ¬ 20 * k + 20 < 40), ih k (by omega)]
      rw [List.take_succ_cons, List.drop_succ_cons]
      rw [show drawColumn (k + 1) (r :: rs.take k) =
            CanvasOp.draw 30 (20 * (k + 1) + 20) (renderLine r) ::
              drawColumn k (rs.take k) from rfl]
      rw [List.cons_append]
      simp only [List.length_cons, Nat.add_le_add_iff_right]

/-- The canvas loop starting at `y = 800` computes exactly the 39-lines-a-page
document of `render_document_spec`. -/
lemma genOps_800_eq_spec :
    ∀ n : Nat, ∀ rows : List ReportRow, rows.length ≤ n →
      genOps rows 800 = render_document_spec rows := by
  intro n
  induction n with
  | zero =>
    intro rows h
    have hrows : rows = [] := List.eq_nil_of_length_eq_zero (by omega)
    subst hrows
    rw [render_document_spec]
    simp [genOps, drawColumn]
  | succ n ih =>
    intro rows h
    rw [show (800 : Nat) = 20 * 39 + 20 by norm_num,
      genOps_page_unroll rows 39 (by norm_num), render_document_spec]
    by_cases h39 : 39 ≤ rows.length
    · rw [if_pos h39, dif_pos h39,
        ih (rows.drop 39) (by simp only [List.length_drop]; omega)]
    · rw [if_neg h39, dif_neg h39, List.append_nil,
        List.take_of_length_le (by omega)]

/-- C9: `generate_pdf_report` draws exactly one line of text per input row,
in the input sequence's order (second conjunct), laid out 39 lines to a page
at the fixed margins with a page break exactly when the vertical space is
exhausted (first conjunct, a refinement of the 39-lines-a-page document
specification), and it is deterministic: any call on the same input sequence
produces the same operations (third conjunct). -/
theorem generate_pdf_report_paginates (data : List ReportRow) :
    generate_pdf_report data = render_document_spec data ∧
      drawTexts (generate_pdf_report data) = data.map renderLine ∧
      (∀ data2 : List ReportRow, data2 = data →
        generate_pdf_report data2 = generate_pdf_report data) :=
  ⟨genOps_800_eq_spec data.length data le_rfl,
   drawTexts_genOps data 800,
   fun _ h => by rw [h]⟩

/-- Witness for C9 on the one-row report of the student `("Ann", "a@x.com")`. -/
theorem generate_pdf_report_paginates_witness :
    generate_pdf_report [⟨"Ann", "a@x.com", "Acme", "3 months", "ok", 2⟩] =
        render_document_spec [⟨"Ann", "a@x.com", "Acme", "3 months", "ok", 2⟩] ∧
      drawTexts (generate_pdf_report [⟨"Ann", "a@x.com", "Acme", "3 months", "ok", 2⟩]) =
        List.map renderLine [⟨"Ann", "a@x.com", "Acme", "3 months", "ok", 2⟩] ∧
      (∀ data2 : List ReportRow,
        data2 = [⟨"Ann", "a@x.com", "Acme", "3 months", "ok", 2⟩] →
          generate_pdf_report data2 =
            generate_pdf_report [⟨"Ann", "a@x.com", "Acme", "3 months", "ok", 2⟩]) :=
  generate_pdf_report_paginates [⟨"Ann", "a@x.com", "Acme", "3 months", "ok", 2⟩]

end Kyra
